import Mathlib

/-!
Shallow embedding of the risk-and-scoring engine of the
Stock_Analysis_5LensFramework repository (src/risk_metrics.py,
src/data_fetcher.py, src/streamlit_app.py).

Prices, returns and metric values are modelled as rationals.  The
float-only primitives with no rational counterpart (np.sqrt, np.log and
scipy.stats.norm.ppf) are taken as explicit function parameters of the
definitions that use them; no claim in this development depends on their
values.  Division follows the Lean convention x / 0 = 0; the corner
cases in which Python would instead produce inf or nan lie outside every
claim and are noted at the relevant definitions.
-/

namespace FiveLens

/-- Arithmetic mean of a list of rationals; an empty list gives 0
(numpy would give nan there, a case each caller below guards against). -/
def mean (l : List ℚ) : ℚ := l.sum / (l.length : ℚ)

/-- Central moment of order k, normalised by the population size n.
This matches the numpy and scipy defaults (ddof = 0, bias = True). -/
def centralMoment (k : ℕ) (l : List ℚ) : ℚ :=
  ((l.map (fun x => (x - mean l) ^ k)).sum) / (l.length : ℚ)

/-- Population variance: np.var with its default ddof = 0. -/
def popVar (l : List ℚ) : ℚ := centralMoment 2 l

/-- Sample variance: the square of pandas Series.std, whose default is
ddof = 1.  For a one-element list the denominator is 0 and the Lean
convention yields 0 where pandas yields nan; no claim touches that case. -/
def sampleVar (l : List ℚ) : ℚ :=
  ((l.map (fun x => (x - mean l) ^ 2)).sum) / ((l.length : ℚ) - 1)

/-- Off-diagonal entry of np.cov(xs, ys), which normalises by n - 1
(its default is ddof = 1, unlike np.var). -/
def sampleCov (xs ys : List ℚ) : ℚ :=
  (((xs.zip ys).map (fun p => (p.1 - mean xs) * (p.2 - mean ys))).sum) /
    ((xs.length : ℚ) - 1)

/-- pandas pct_change().dropna(): simple period-over-period returns,
one per consecutive pair of prices. -/
def pctChange (l : List ℚ) : List ℚ :=
  (l.zip l.tail).map (fun pq => pq.2 / pq.1 - 1)

/-- np.percentile with its default linear interpolation: sort the data
ascending, take the virtual index q / 100 * (n - 1) and interpolate
between the two neighbouring order statistics (the upper neighbour is
clipped to the last element at the right edge). -/
def npPercentile (l : List ℚ) (q : ℚ) : ℚ :=
  let s := List.insertionSort (· ≤ ·) l
  let h := q / 100 * ((s.length : ℚ) - 1)
  let i := (Int.floor h).toNat
  let lo := s.getD i 0
  let hi := s.getD (i + 1) lo
  lo + (h - (Int.floor h : ℚ)) * (hi - lo)

/-- Round-half-to-even on rationals, the rounding used by the Python
built-in round and by np.round. -/
def bankersRound (x : ℚ) : ℤ :=
  let f := x - Int.floor x
  if f < 1 / 2 then Int.floor x
  else if 1 / 2 < f then Int.floor x + 1
  else if 2 ∣ Int.floor x then Int.floor x else Int.floor x + 1

/-- round(x, 4) of the Python sources. -/
def round4 (x : ℚ) : ℚ := (bankersRound (x * 10000) : ℚ) / 10000

/-- scipy.stats.skew with its defaults (bias = True): m3 / m2 ^ (3 / 2),
written with the supplied square-root function as m3 / (m2 * sqrtf m2). -/
def skewQ (sqrtf : ℚ → ℚ) (l : List ℚ) : ℚ :=
  centralMoment 3 l / (popVar l * sqrtf (popVar l))

/-- scipy.stats.kurtosis with its defaults (Fisher = True, bias = True):
m4 / m2 ^ 2 - 3, which is fully rational. -/
def kurtQ (l : List ℚ) : ℚ := centralMoment 4 l / (popVar l) ^ 2 - 3

/-- Helper for the expanding maximum: running maximum of the tail given
the maximum seen so far. -/
def runningMaxAux (m : ℚ) : List ℚ → List ℚ
  | [] => []
  | x :: xs => max m x :: runningMaxAux (max m x) xs

/-- pandas Series.expanding().max(): the running maximum of a series. -/
def runningMax : List ℚ → List ℚ
  | [] => []
  | x :: xs => x :: runningMaxAux x xs

/-- The per-point drawdown series (price - running_peak) / running_peak
of RiskMetricsCalculator.calculate_drawdown. -/
def drawdowns (prices : List ℚ) : List ℚ :=
  (prices.zip (runningMax prices)).map (fun pm => (pm.1 - pm.2) / pm.2)

/-- Minimum of a list of rationals, 0 on the empty list (only reached
through branches that already returned a default in the source). -/
def listMin : List ℚ → ℚ
  | [] => 0
  | x :: xs => xs.foldl min x

namespace RiskMetricsCalculator

/-- RiskMetricsCalculator.calculate_returns (src/risk_metrics.py 140-164):
fewer than 2 prices give an empty array; the log method drops entries
whose price ratio is not positive (np.log of such a ratio is nan, removed
by dropna); any other method string takes the pct_change branch. -/
def calculate_returns (logf : ℚ → ℚ) (method : String) (prices : List ℚ) :
    List ℚ :=
  if prices.length < 2 then []
  else if method = "log" then
    (prices.zip prices.tail).filterMap
      (fun pq => if 0 < pq.2 / pq.1 then some (logf (pq.2 / pq.1)) else none)
  else pctChange prices

/-- RiskMetricsCalculator.calculate_var (src/risk_metrics.py 166-215):
fewer than 10 observations give the sentinel -0.05; otherwise the method
string selects historical, parametric or Cornish-Fisher estimation, and
any unrecognised string falls through to the historical quantile.
ppf stands for scipy.stats.norm.ppf and sqrtf for the float square root
inside np.std. -/
def calculate_var (ppf sqrtf : ℚ → ℚ) (returns : List ℚ) (confidence : ℚ)
    (method : String) : ℚ :=
  if returns.length < 10 then -(5 / 100)
  else if method = "historical" then npPercentile returns ((1 - confidence) * 100)
  else if method = "parametric" then
    mean returns + ppf (1 - confidence) * sqrtf (popVar returns)
  else if method = "cornish-fisher" then
    let m := mean returns
    let sd := sqrtf (popVar returns)
    let sk := skewQ sqrtf returns
    let ku := kurtQ returns
    let z := ppf (1 - confidence)
    let zcf := z + (z ^ 2 - 1) * sk / 6 + (z ^ 3 - 3 * z) * ku / 24 -
      (2 * z ^ 3 - 5 * z) * sk ^ 2 / 36
    m + zcf * sd
  else npPercentile returns ((1 - confidence) * 100)

/-- RiskMetricsCalculator.calculate_cvar (src/risk_metrics.py 217-243):
fewer than 10 observations give the sentinel -0.08; otherwise the mean
of the returns at or below the historical VaR (calculate_var is called
with its default method), falling back to the VaR itself when that tail
is empty (the nan-mean check of the source). -/
def calculate_cvar (ppf sqrtf : ℚ → ℚ) (returns : List ℚ) (confidence : ℚ) :
    ℚ :=
  if returns.length < 10 then -(8 / 100)
  else
    let var := calculate_var ppf sqrtf returns confidence "historical"
    let tail := returns.filter (fun r => decide (r ≤ var))
    if tail = [] then var else mean tail

/-- RiskMetricsCalculator.calculate_volatility (src/risk_metrics.py
110-138): sample standard deviation of simple returns, annualised by
the square root of the period count. -/
def calculate_volatility (sqrtf : ℚ → ℚ) (prices : List ℚ) (periods : ℚ) :
    ℚ :=
  if prices.length < 2 then 0
  else
    let returns := pctChange prices
    if returns.length = 0 then 0
    else sqrtf (sampleVar returns) * sqrtf periods

/-- RiskMetricsCalculator.calculate_sharpe_ratio (src/risk_metrics.py
245-276); np.std there has ddof = 0. -/
def calculate_sharpe (sqrtf : ℚ → ℚ) (returns : List ℚ) (rf periods : ℚ) :
    ℚ :=
  if returns.length < 2 then 0
  else
    let ar := mean returns * periods
    let av := sqrtf (popVar returns) * sqrtf periods
    if av = 0 then 0 else (ar - rf) / av

/-- RiskMetricsCalculator.calculate_sortino_ratio (src/risk_metrics.py
278-315): like Sharpe with the denominator built from negative returns
only. -/
def calculate_sortino (sqrtf : ℚ → ℚ) (returns : List ℚ) (rf periods : ℚ) :
    ℚ :=
  if returns.length < 2 then 0
  else
    let ar := mean returns * periods
    let ds := returns.filter (fun r => decide (r < 0))
    let dv := if ds.length = 0 then 0 else sqrtf (popVar ds) * sqrtf periods
    if dv = 0 then 0 else (ar - rf) / dv

/-- RiskMetricsCalculator.calculate_drawdown (src/risk_metrics.py
317-343): maximum drawdown is the minimum of the per-point drawdown
series, average drawdown the mean of its negative entries. -/
def calculate_drawdown (prices : List ℚ) : ℚ × ℚ :=
  if prices.length < 2 then (0, 0)
  else
    let dd := drawdowns prices
    let neg := dd.filter (fun d => decide (d < 0))
    (listMin dd, if neg.length = 0 then 0 else mean neg)

/-- The data- and return-alignment steps of
RiskMetricsCalculator.calculate_beta (src/risk_metrics.py 365-377):
both series are cut to their common tail length, simple returns are
computed, and both return windows are cut to their common tail length
(for equal-length inputs these drops are no-ops). -/
def betaAlignedReturns (stock_prices market_prices : List ℚ) :
    List ℚ × List ℚ :=
  let minLen := min stock_prices.length market_prices.length
  let sp := stock_prices.drop (stock_prices.length - minLen)
  let mp := market_prices.drop (market_prices.length - minLen)
  let sr := pctChange sp
  let mr := pctChange mp
  let minRet := min sr.length mr.length
  (sr.drop (sr.length - minRet), mr.drop (mr.length - minRet))

/-- RiskMetricsCalculator.calculate_beta (src/risk_metrics.py 346-391):
default 1.0 when either series is shorter than 20 points, after tail
alignment beta = np.cov(stock, market)[0, 1] / np.var(market), with
default 1.0 again when the return windows are shorter than 2 points or
the market variance is zero.  The result is returned as is: no rounding
and no plausible-range check. -/
def calculate_beta (stock_prices market_prices : List ℚ) : ℚ :=
  if stock_prices.length < 20 ∨ market_prices.length < 20 then 1
  else
    let sr2 := (betaAlignedReturns stock_prices market_prices).1
    let mr2 := (betaAlignedReturns stock_prices market_prices).2
    if sr2.length < 2 ∨ mr2.length < 2 then 1
    else
      let cov := sampleCov sr2 mr2
      let mvar := popVar mr2
      if mvar = 0 then 1 else cov / mvar

/-- RiskMetricsCalculator.calculate_calmar_ratio (src/risk_metrics.py
393-421). -/
def calculate_calmar (returns : List ℚ) (maxDD periods : ℚ) : ℚ :=
  if returns.length < 2 ∨ maxDD = 0 then 0
  else mean returns * periods / |maxDD|

/-- The flat metrics mapping produced per evaluation (the dict returned
by calculate_all_risk_metrics); the sharpe_ratio, sortino_ratio,
calmar_ratio and information_ratio keys of the source are the sharpe,
sortino, calmar and info_r fields here. -/
structure RiskMetrics where
  volatility_252d : ℚ
  volatility_60d : ℚ
  var_95 : ℚ
  var_99 : ℚ
  cvar_95 : ℚ
  sharpe : ℚ
  max_drawdown : ℚ
  avg_drawdown : ℚ
  beta : ℚ
  sortino : ℚ
  skewness : ℚ
  kurtosis : ℚ
  calmar : ℚ
  info_r : ℚ
  deriving DecidableEq, Repr

/-- RiskMetricsCalculator._get_default_metrics (src/risk_metrics.py
472-490): the fixed default profile. -/
def _get_default_metrics : RiskMetrics :=
  { volatility_252d := 25 / 100
    volatility_60d := 25 / 100
    var_95 := -(5 / 100)
    var_99 := -(8 / 100)
    cvar_95 := -(8 / 100)
    sharpe := 5 / 10
    max_drawdown := -(20 / 100)
    avg_drawdown := -(10 / 100)
    beta := 1
    sortino := 7 / 10
    skewness := 0
    kurtosis := 0
    calmar := 1
    info_r := 0 }

/-- RiskMetricsCalculator.calculate_all_risk_metrics (src/risk_metrics.py
33-108): the orchestration.  Fewer than 2 prices give the default
profile; the returns fed to VaR, CVaR, Sharpe, Sortino, skewness,
kurtosis and Calmar are log returns (the source calls calculate_returns
with its default method); beta uses the market series only when it is
present and at least half as long as the price series, else 1.0.  The
current_price argument is accepted and unused, as in the source. -/
def calculate_all_risk_metrics (logf ppf sqrtf : ℚ → ℚ)
    (price_history : List ℚ) (market_data : Option (List ℚ))
    (_current_price : Option ℚ) : RiskMetrics :=
  if price_history.length < 2 then _get_default_metrics
  else
    let returns := calculate_returns logf "log" price_history
    let dd := calculate_drawdown price_history
    { volatility_252d := calculate_volatility sqrtf price_history 252
      volatility_60d := calculate_volatility sqrtf price_history 60
      var_95 := calculate_var ppf sqrtf returns (95 / 100) "historical"
      var_99 := calculate_var ppf sqrtf returns (99 / 100) "historical"
      cvar_95 := calculate_cvar ppf sqrtf returns (95 / 100)
      sharpe := calculate_sharpe sqrtf returns (6 / 100) 252
      max_drawdown := dd.1
      avg_drawdown := dd.2
      beta :=
        match market_data with
        | some m =>
            if (price_history.length : ℚ) * (1 / 2) ≤ (m.length : ℚ) then
              calculate_beta price_history m
            else 1
        | none => 1
      sortino := calculate_sortino sqrtf returns (6 / 100) 252
      skewness := skewQ sqrtf returns
      kurtosis := kurtQ returns
      calmar := calculate_calmar returns dd.1 252
      info_r := 0 }

end RiskMetricsCalculator

namespace DataFetcher

/-- pandas pct_change kept with its leading nan: the first dated entry
becomes none, every later one carries its simple return. -/
def seriesPctChange (l : List (ℤ × ℚ)) : List (ℤ × Option ℚ) :=
  match l with
  | [] => []
  | (d, _) :: _ =>
      (d, none) ::
        (l.zip l.tail).map (fun pq => (pq.2.1, some (pq.2.2 / pq.1.2 - 1)))

/-- pd.concat(axis = 1, join = "inner") followed by dropna: pair the two
return series by date and keep only the dates at which both carry a
value.  Timestamps of a price series are strictly increasing and
duplicate-free (the data model of the collaborators), so a lookup into
the second series is the inner join. -/
def alignReturns (a b : List (ℤ × Option ℚ)) : List (ℚ × ℚ) :=
  a.filterMap (fun dx =>
    match dx.2, b.lookup dx.1 with
    | some x, some (some y) => some (x, y)
    | _, _ => none)

/-- The aligned return pairs of DataFetcher.calculate_beta
(src/data_fetcher.py 219-226): per-series returns, inner-joined by date
with the nan rows dropped. -/
def alignedJoined (stock market : List (ℤ × ℚ)) : List (ℚ × ℚ) :=
  alignReturns (seriesPctChange stock) (seriesPctChange market)

/-- DataFetcher.calculate_beta (src/data_fetcher.py 169-258), its pure
computation after the two Close series have been fetched: none for
absent or empty data, none for fewer than 30 aligned return points,
none for zero market variance, otherwise cov / var (np.cov with
ddof = 1 over np.var with ddof = 0) rounded to 4 decimal places.  The
final isnan and isinf checks of the source cannot fire over ℚ. -/
def calculate_beta (stock market : List (ℤ × ℚ)) : Option ℚ :=
  if stock = [] then none
  else if market = [] then none
  else
    let joined := alignedJoined stock market
    if joined.length < 30 then none
    else
      let sr := joined.map Prod.fst
      let mr := joined.map Prod.snd
      let cov := sampleCov sr mr
      let mvar := popVar mr
      if mvar = 0 then none
      else some (round4 (cov / mvar))

end DataFetcher

namespace CompositeScorer

/-- Modelled from the spec: clamping of a lens score to [0, 100], the
scorer's responsibility per section 4.4; src/ contains no scorer code
(streamlit_app.py only shows a hardcoded demo panel). -/
def clampScore (x : ℚ) : ℚ := max 0 (min 100 x)

/-- Modelled from the spec: the Five-Lens composite
0.20 V + 0.25 Q + 0.20 G + 0.20 H + 0.15 R over clamped inputs
(section 4.4); this computation is absent from src/. -/
def compositeScore (V Q G H R : ℚ) : ℚ :=
  (20 * clampScore V + 25 * clampScore Q + 20 * clampScore G +
    20 * clampScore H + 15 * clampScore R) / 100

/-- The discrete signal tiers of section 4.4. -/
inductive Signal where
  | excellent
  | good
  | hold
  | caution
  deriving DecidableEq, Repr

/-- Modelled from the spec: signal classification with tier bounds
inclusive of the lower edge (section 4.4); absent from src/. -/
def classifySignal (c : ℚ) : Signal :=
  if 80 ≤ c then Signal.excellent
  else if 70 ≤ c then Signal.good
  else if 60 ≤ c then Signal.hold
  else Signal.caution

end CompositeScorer

/-- Modelled from the spec: drawdown duration (section 4.3), absent from
src/ (calculate_drawdown returns only maximum and average drawdown).
It counts the periods from the first point of maximum drawdown until the
series first recovers to the pre-drawdown peak; List.findIdx returns the
length of the remaining window when no recovery occurs, exactly the
fallback the spec prescribes. -/
def drawdownDuration (prices : List ℚ) : ℕ :=
  if prices.length < 2 then 0
  else
    let dd := drawdowns prices
    let m := listMin dd
    let t := dd.findIdx (fun x => decide (x = m))
    let peak := (runningMax prices).getD t 0
    (prices.drop t).findIdx (fun p => decide (peak ≤ p))

/-- A 31-day price series alternating between 1 and 2, giving 30 aligned
return points when used as both instrument and market. -/
def prices31 : List ℚ :=
  (List.range 31).map (fun i => if i % 2 = 0 then 1 else 2)

/-- The same 31-day series with calendar-day timestamps. -/
def dated31 : List (ℤ × ℚ) :=
  (List.range 31).map (fun i => ((i : ℤ), if i % 2 = 0 then 1 else 2))

/-- A 20-day stock series whose returns alternate between 1/10 and
-1/11. -/
def exStock : List ℚ :=
  (List.range 20).map (fun i => if i % 2 = 0 then 100 else 110)

/-- A 20-day market series whose returns alternate between 1/100 and
-1/101: a tenth of the stock moves, driving beta far above 5. -/
def exMarket : List ℚ :=
  (List.range 20).map (fun i => if i % 2 = 0 then 100 else 101)

/-- A constant 20-day market series: its aligned returns are all zero,
so the market variance is zero. -/
def flat20 : List ℚ := List.replicate 20 100

/-- A constant 31-day market series with calendar-day timestamps: 30
aligned return points of zero, so the market variance is zero. -/
def flatDated31 : List (ℤ × ℚ) :=
  (List.range 31).map (fun i => ((i : ℤ), 100))

theorem filterMap_length_of_all_some {α β : Type} (f : α → Option β) :
    ∀ l : List α, (∀ x ∈ l, (f x).isSome) → (l.filterMap f).length = l.length := by
  intro l h
  induction l with
  | nil => simp
  | cons x xs ih =>
    rw [List.filterMap_cons]
    have hx := h x (List.mem_cons_self x xs)
    cases hfx : f x with
    | none => rw [hfx] at hx; simp at hx
    | some b =>
      simp only [List.length_cons]
      rw [ih (fun y hy => h y (List.mem_cons_of_mem x hy))]

/-- C9: a price series of N points with N at least 2 and all prices
positive yields exactly N - 1 return points, for the log method and for
every other method string (which takes the simple-returns branch), and a
series with fewer than 2 points yields the empty series without error. -/
theorem returns_length_contract (logf : ℚ → ℚ) (method : String)
    (prices : List ℚ) :
    (2 ≤ prices.length → (∀ p ∈ prices, 0 < p) →
      (RiskMetricsCalculator.calculate_returns logf method prices).length =
        prices.length - 1) ∧
    (prices.length < 2 →
      RiskMetricsCalculator.calculate_returns logf method prices = []) := by
  constructor
  · intro h2 hpos
    have hnlt : ¬ prices.length < 2 := Nat.not_lt.mpr h2
    have hzlen : (prices.zip prices.tail).length = prices.length - 1 := by
      rw [List.length_zip, List.length_tail]
      exact Nat.min_eq_right (Nat.sub_le _ _)
    by_cases hm : method = "log"
    · simp only [RiskMetricsCalculator.calculate_returns, if_neg hnlt, if_pos hm]
      rw [filterMap_length_of_all_some _ _ ?_, hzlen]
      intro pq hpq
      have h1 : pq.1 ∈ prices ∧ pq.2 ∈ prices.tail := by
        obtain ⟨a, b⟩ := pq
        exact List.of_mem_zip hpq
      have hdiv : 0 < pq.2 / pq.1 :=
        div_pos (hpos _ (List.mem_of_mem_tail h1.2)) (hpos _ h1.1)
      simp [hdiv]
    · simp only [RiskMetricsCalculator.calculate_returns, if_neg hnlt,
        if_neg hm, pctChange]
      rw [List.length_map]
      exact hzlen
  · intro h
    simp only [RiskMetricsCalculator.calculate_returns, if_pos h]

theorem returns_length_contract_witness :
    (RiskMetricsCalculator.calculate_returns (fun x => x) "log"
      [1, 2, 4]).length = 3 - 1 :=
  (returns_length_contract (fun x => x) "log" [1, 2, 4]).1 (by norm_num)
    (by norm_num)

/-- C6: with fewer than 10 return observations, VaR returns the sentinel
-0.05 for every confidence level and method string, and CVaR returns its
sentinel -0.08; both are total functions, so no exception is possible. -/
theorem var_cvar_sentinels_short_series (ppf sqrtf : ℚ → ℚ)
    (returns : List ℚ) (confidence : ℚ) (method : String)
    (h : returns.length < 10) :
    RiskMetricsCalculator.calculate_var ppf sqrtf returns confidence method =
      -(5 / 100) ∧
    RiskMetricsCalculator.calculate_cvar ppf sqrtf returns confidence =
      -(8 / 100) :=
  ⟨by simp [RiskMetricsCalculator.calculate_var, h],
   by simp [RiskMetricsCalculator.calculate_cvar, h]⟩

theorem var_cvar_sentinels_short_series_witness :
    RiskMetricsCalculator.calculate_var (fun q => q) (fun q => q) []
      (95 / 100) "parametric" = -(5 / 100) ∧
    RiskMetricsCalculator.calculate_cvar (fun q => q) (fun q => q) []
      (95 / 100) = -(8 / 100) :=
  var_cvar_sentinels_short_series (fun q => q) (fun q => q) [] (95 / 100)
    "parametric" (by decide)

/-- C10: with at least 10 observations, any method string other than
historical, parametric and cornish-fisher silently takes the same
historical-quantile branch as the historical method, raising no error. -/
theorem var_unknown_method_falls_back_historical (ppf sqrtf : ℚ → ℚ)
    (r : List ℚ) (c : ℚ) (method : String) (h10 : 10 ≤ r.length)
    (h1 : method ≠ "historical") (h2 : method ≠ "parametric")
    (h3 : method ≠ "cornish-fisher") :
    RiskMetricsCalculator.calculate_var ppf sqrtf r c method =
      RiskMetricsCalculator.calculate_var ppf sqrtf r c "historical" := by
  have hn : ¬ r.length < 10 := Nat.not_lt.mpr h10
  simp [RiskMetricsCalculator.calculate_var, hn, h1, h2, h3]

theorem var_unknown_method_falls_back_historical_witness :
    RiskMetricsCalculator.calculate_var (fun q => q) (fun q => q)
      [0, 0, 0, 0, 0, 0, 0, 0, 0, 0] (95 / 100) "quantile" =
    RiskMetricsCalculator.calculate_var (fun q => q) (fun q => q)
      [0, 0, 0, 0, 0, 0, 0, 0, 0, 0] (95 / 100) "historical" :=
  var_unknown_method_falls_back_historical (fun q => q) (fun q => q)
    [0, 0, 0, 0, 0, 0, 0, 0, 0, 0] (95 / 100) "quantile" (by decide)
    (by decide) (by decide) (by decide)

/-- C4: in the all-risk-metrics orchestration, an absent market series,
or one shorter than half the instrument series, makes the reported beta
exactly the default 1.0; the direct estimator is only reachable in the
complementary branch. -/
theorem all_metrics_beta_default_when_market_unusable (logf ppf sqrtf : ℚ → ℚ)
    (prices : List ℚ) (market : Option (List ℚ)) (cp : Option ℚ)
    (h : market = none ∨ ∃ m, market = some m ∧ 2 * m.length < prices.length) :
    (RiskMetricsCalculator.calculate_all_risk_metrics logf ppf sqrtf prices
      market cp).beta = 1 := by
  by_cases hl : prices.length < 2
  · simp [RiskMetricsCalculator.calculate_all_risk_metrics, hl,
      RiskMetricsCalculator._get_default_metrics]
  · rcases h with rfl | ⟨m, rfl, hm⟩
    · simp [RiskMetricsCalculator.calculate_all_risk_metrics, hl]
    · have hq : ¬ ((prices.length : ℚ) * 2⁻¹ ≤ (m.length : ℚ)) := by
        rw [not_le]
        have h2 : ((2 * m.length : ℕ) : ℚ) < ((prices.length : ℕ) : ℚ) := by
          exact_mod_cast hm
        push_cast at h2
        linarith
      simp only [RiskMetricsCalculator.calculate_all_risk_metrics, if_neg hl]
      simp only [one_div]
      rw [if_neg hq]

theorem all_metrics_beta_default_when_market_unusable_witness :
    (RiskMetricsCalculator.calculate_all_risk_metrics (fun q => q)
      (fun q => q) (fun q => q) [1, 2, 3, 4] (some [5]) none).beta = 1 :=
  all_metrics_beta_default_when_market_unusable (fun q => q) (fun q => q)
    (fun q => q) [1, 2, 3, 4] (some [5]) none
    (Or.inr ⟨[5], rfl, by decide⟩)

/-- C5: an instrument price series with fewer than 2 points makes the
all-risk-metrics operation return the full fixed default profile without
raising, every field populated, in particular beta 1.0 and both
volatility fields 0.25. -/
theorem all_metrics_default_profile_short_series (logf ppf sqrtf : ℚ → ℚ)
    (prices : List ℚ) (market : Option (List ℚ)) (cp : Option ℚ)
    (h : prices.length < 2) :
    RiskMetricsCalculator.calculate_all_risk_metrics logf ppf sqrtf prices
      market cp = RiskMetricsCalculator._get_default_metrics ∧
    RiskMetricsCalculator._get_default_metrics.beta = 1 ∧
    RiskMetricsCalculator._get_default_metrics.volatility_252d = 25 / 100 :=
  ⟨by simp [RiskMetricsCalculator.calculate_all_risk_metrics, h], rfl, rfl⟩

theorem all_metrics_default_profile_short_series_witness :
    RiskMetricsCalculator.calculate_all_risk_metrics (fun q => q)
      (fun q => q) (fun q => q) [100] (some [1, 2]) (some 5) =
      RiskMetricsCalculator._get_default_metrics ∧
    RiskMetricsCalculator._get_default_metrics.beta = 1 ∧
    RiskMetricsCalculator._get_default_metrics.volatility_252d = 25 / 100 :=
  all_metrics_default_profile_short_series (fun q => q) (fun q => q)
    (fun q => q) [100] (some [1, 2]) (some 5) (by decide)

set_option maxRecDepth 100000 in
unseal Rat.mul Rat.add Rat.inv Rat.sub in
/-- C1 counterexample: the beta estimation of DataFetcher returns the
unavailable value none on absent input, and the beta estimation of
RiskMetricsCalculator returns a value far outside the plausible range
(-5, 5) on a concrete 20-day pair of series, refuting both the
never-null and the bounded-range parts of the claim. -/
theorem beta_claim_counterexample :
    DataFetcher.calculate_beta [] [] = none ∧
    5 < RiskMetricsCalculator.calculate_beta exStock exMarket := by decide

theorem pctChange_length (l : List ℚ) :
    (pctChange l).length = l.length - 1 := by
  rw [pctChange, List.length_map, List.length_zip l l.tail, List.length_tail]
  exact Nat.min_eq_right (Nat.sub_le _ _)

theorem betaAligned_lengths (s m : List ℚ) :
    (RiskMetricsCalculator.betaAlignedReturns s m).1.length = min s.length m.length - 1 ∧
    (RiskMetricsCalculator.betaAlignedReturns s m).2.length = min s.length m.length - 1 := by
  simp only [RiskMetricsCalculator.betaAlignedReturns, List.length_drop, pctChange_length]
  omega

/-- C1 amended: both estimators are total and never raise, but the
guarantee is weaker than claimed: RiskMetricsCalculator.calculate_beta
always returns a number, falling back to the default 1.0 whenever
either price series has fewer than 20 points or the aligned market
returns have zero variance, while DataFetcher.calculate_beta returns
the unavailable value none whenever either series is absent or empty,
fewer than 30 aligned return points exist, or the aligned market
returns have zero variance. -/
theorem beta_estimators_degenerate_default (s m : List ℚ)
    (a b : List (ℤ × ℚ)) :
    (s.length < 20 ∨ m.length < 20 →
      RiskMetricsCalculator.calculate_beta s m = 1) ∧
    (¬ (s.length < 20 ∨ m.length < 20) →
      popVar (RiskMetricsCalculator.betaAlignedReturns s m).2 = 0 →
      RiskMetricsCalculator.calculate_beta s m = 1) ∧
    (a = [] ∨ b = [] → DataFetcher.calculate_beta a b = none) ∧
    (a ≠ [] → b ≠ [] → (DataFetcher.alignedJoined a b).length < 30 →
      DataFetcher.calculate_beta a b = none) ∧
    (a ≠ [] → b ≠ [] → ¬ (DataFetcher.alignedJoined a b).length < 30 →
      popVar ((DataFetcher.alignedJoined a b).map Prod.snd) = 0 →
      DataFetcher.calculate_beta a b = none) := by
  refine ⟨?_, ?_, ?_, ?_, ?_⟩
  · intro hs
    simp only [RiskMetricsCalculator.calculate_beta]
    rw [if_pos hs]
  · intro hshort hvar
    have hlen := betaAligned_lengths s m
    have hguard : ¬ ((RiskMetricsCalculator.betaAlignedReturns s m).1.length < 2 ∨
        (RiskMetricsCalculator.betaAlignedReturns s m).2.length < 2) := by
      rcases not_or.mp hshort with ⟨hs20, hm20⟩
      rw [not_or, hlen.1, hlen.2]
      omega
    simp only [RiskMetricsCalculator.calculate_beta]
    rw [if_neg hshort, if_neg hguard, if_pos hvar]
  · intro hab
    rcases hab with rfl | rfl
    · simp [DataFetcher.calculate_beta]
    · by_cases ha : a = []
      · simp [DataFetcher.calculate_beta, ha]
      · simp [DataFetcher.calculate_beta, ha]
  · intro ha hb h30
    simp only [DataFetcher.calculate_beta]
    rw [if_neg ha, if_neg hb, if_pos h30]
  · intro ha hb h30 hvar
    simp only [DataFetcher.calculate_beta]
    rw [if_neg ha, if_neg hb, if_neg h30, if_pos hvar]

set_option maxRecDepth 100000 in
unseal Rat.mul Rat.add Rat.inv Rat.sub in
theorem beta_estimators_degenerate_default_witness :
    RiskMetricsCalculator.calculate_beta [1] [1] = 1 ∧
    RiskMetricsCalculator.calculate_beta exStock flat20 = 1 ∧
    DataFetcher.calculate_beta [] [((0 : ℤ), (1 : ℚ))] = none ∧
    DataFetcher.calculate_beta [((0 : ℤ), (1 : ℚ)), ((1 : ℤ), (2 : ℚ))]
      [((0 : ℤ), (1 : ℚ)), ((1 : ℤ), (2 : ℚ))] = none ∧
    DataFetcher.calculate_beta dated31 flatDated31 = none :=
  ⟨(beta_estimators_degenerate_default [1] [1] [] []).1
      (Or.inl (by decide)),
   (beta_estimators_degenerate_default exStock flat20 [] []).2.1
      (by decide) (by decide),
   (beta_estimators_degenerate_default [] [] [] [((0 : ℤ), (1 : ℚ))]).2.2.1
      (Or.inl rfl),
   (beta_estimators_degenerate_default [] []
      [((0 : ℤ), (1 : ℚ)), ((1 : ℤ), (2 : ℚ))]
      [((0 : ℤ), (1 : ℚ)), ((1 : ℤ), (2 : ℚ))]).2.2.2.1
      (by decide) (by decide) (by decide),
   (beta_estimators_degenerate_default [] [] dated31 flatDated31).2.2.2.2
      (by decide) (by decide) (by decide) (by decide)⟩

set_option maxRecDepth 100000 in
unseal Rat.mul Rat.add Rat.inv Rat.sub in
/-- C3: evaluating both beta implementations with the same 31-day price
series as instrument and market (30 aligned return points, so tier-1
direct estimation is reachable) gives 30/29, rounded 1.0345, not the 1.0
the specification requires: np.cov normalises by n - 1 while np.var
normalises by n. -/
theorem identical_series_beta_eval :
    DataFetcher.calculate_beta dated31 dated31 = some (2069 / 2000) ∧
    RiskMetricsCalculator.calculate_beta prices31 prices31 = 30 / 29 ∧
    (2069 / 2000 : ℚ) ≠ 1 := by decide

/-- C7: over clamped lens scores the composite equals the fixed-weight
sum 0.20 V + 0.25 Q + 0.20 G + 0.20 H + 0.15 R, always lies in [0, 100],
and the signal tiers have inclusive lower bounds, a composite of exactly
70 landing in the Good tier. -/
theorem composite_score_formula_range_tiers (V Q G H R c : ℚ)
    (hV0 : 0 ≤ V) (hV1 : V ≤ 100) (hQ0 : 0 ≤ Q) (hQ1 : Q ≤ 100)
    (hG0 : 0 ≤ G) (hG1 : G ≤ 100) (hH0 : 0 ≤ H) (hH1 : H ≤ 100)
    (hR0 : 0 ≤ R) (hR1 : R ≤ 100) :
    CompositeScorer.compositeScore V Q G H R =
      (20 * V + 25 * Q + 20 * G + 20 * H + 15 * R) / 100 ∧
    0 ≤ CompositeScorer.compositeScore V Q G H R ∧
    CompositeScorer.compositeScore V Q G H R ≤ 100 ∧
    (80 ≤ c → CompositeScorer.classifySignal c = CompositeScorer.Signal.excellent) ∧
    (70 ≤ c → c < 80 → CompositeScorer.classifySignal c = CompositeScorer.Signal.good) ∧
    (60 ≤ c → c < 70 → CompositeScorer.classifySignal c = CompositeScorer.Signal.hold) ∧
    (c < 60 → CompositeScorer.classifySignal c = CompositeScorer.Signal.caution) ∧
    CompositeScorer.classifySignal 70 = CompositeScorer.Signal.good := by
  have hcV : CompositeScorer.clampScore V = V := by
    rw [CompositeScorer.clampScore, min_eq_right hV1, max_eq_right hV0]
  have hcQ : CompositeScorer.clampScore Q = Q := by
    rw [CompositeScorer.clampScore, min_eq_right hQ1, max_eq_right hQ0]
  have hcG : CompositeScorer.clampScore G = G := by
    rw [CompositeScorer.clampScore, min_eq_right hG1, max_eq_right hG0]
  have hcH : CompositeScorer.clampScore H = H := by
    rw [CompositeScorer.clampScore, min_eq_right hH1, max_eq_right hH0]
  have hcR : CompositeScorer.clampScore R = R := by
    rw [CompositeScorer.clampScore, min_eq_right hR1, max_eq_right hR0]
  have hform : CompositeScorer.compositeScore V Q G H R =
      (20 * V + 25 * Q + 20 * G + 20 * H + 15 * R) / 100 := by
    rw [CompositeScorer.compositeScore, hcV, hcQ, hcG, hcH, hcR]
  refine ⟨hform, ?_, ?_, ?_, ?_, ?_, ?_, ?_⟩
  · rw [hform]
    positivity
  · rw [hform, div_le_iff₀ (by norm_num : (0 : ℚ) < 100)]
    linarith
  · intro h80
    rw [CompositeScorer.classifySignal, if_pos h80]
  · intro h70 h80
    rw [CompositeScorer.classifySignal, if_neg (not_le.mpr h80), if_pos h70]
  · intro h60 h70
    rw [CompositeScorer.classifySignal, if_neg (not_le.mpr (by linarith)),
      if_neg (not_le.mpr h70), if_pos h60]
  · intro h60
    rw [CompositeScorer.classifySignal, if_neg (not_le.mpr (by linarith)),
      if_neg (not_le.mpr (by linarith)), if_neg (not_le.mpr h60)]
  · rw [CompositeScorer.classifySignal,
      if_neg (by norm_num : ¬ (80 : ℚ) ≤ 70), if_pos (le_refl (70 : ℚ))]

theorem composite_score_formula_range_tiers_witness :
    CompositeScorer.compositeScore 78 82 75 80 72 =
      (20 * 78 + 25 * 82 + 20 * 75 + 20 * 80 + 15 * 72) / 100 ∧
    0 ≤ CompositeScorer.compositeScore 78 82 75 80 72 ∧
    CompositeScorer.compositeScore 78 82 75 80 72 ≤ 100 ∧
    ((80 : ℚ) ≤ 70 → CompositeScorer.classifySignal 70 = CompositeScorer.Signal.excellent) ∧
    ((70 : ℚ) ≤ 70 → (70 : ℚ) < 80 → CompositeScorer.classifySignal 70 = CompositeScorer.Signal.good) ∧
    ((60 : ℚ) ≤ 70 → (70 : ℚ) < 70 → CompositeScorer.classifySignal 70 = CompositeScorer.Signal.hold) ∧
    ((70 : ℚ) < 60 → CompositeScorer.classifySignal 70 = CompositeScorer.Signal.caution) ∧
    CompositeScorer.classifySignal 70 = CompositeScorer.Signal.good :=
  composite_score_formula_range_tiers 78 82 75 80 72 70 (by norm_num)
    (by norm_num) (by norm_num) (by norm_num) (by norm_num) (by norm_num)
    (by norm_num) (by norm_num) (by norm_num) (by norm_num)

theorem runningMaxAux_zip_bounds (l : List ℚ) :
    ∀ m : ℚ, 0 < m → (∀ x ∈ l, 0 < x) →
      ∀ pm ∈ l.zip (runningMaxAux m l), pm.1 ≤ pm.2 ∧ 0 < pm.2 := by
  induction l with
  | nil => intro m _ _ pm hpm; simp [runningMaxAux] at hpm
  | cons x xs ih =>
    intro m hm hpos pm hpm
    rw [runningMaxAux, List.zip_cons_cons] at hpm
    rcases List.mem_cons.mp hpm with rfl | htail
    · exact ⟨le_max_right m x,
        lt_max_of_lt_right (hpos x (List.mem_cons_self x xs))⟩
    · exact ih (max m x) (lt_max_of_lt_left hm)
        (fun y hy => hpos y (List.mem_cons_of_mem x hy)) pm htail

theorem drawdowns_nonpos (prices : List ℚ) (hpos : ∀ p ∈ prices, 0 < p) :
    ∀ d ∈ drawdowns prices, d ≤ 0 := by
  intro d hd
  match prices, hpos with
  | [], _ => simp [drawdowns, runningMax] at hd
  | p :: ps, hpos =>
    rw [drawdowns, runningMax] at hd
    obtain ⟨pm, hpm, rfl⟩ := List.mem_map.mp hd
    rw [List.zip_cons_cons] at hpm
    have hb : pm.1 ≤ pm.2 ∧ 0 < pm.2 := by
      rcases List.mem_cons.mp hpm with rfl | htail
      · exact ⟨le_refl p, hpos p (List.mem_cons_self p ps)⟩
      · exact runningMaxAux_zip_bounds ps p
          (hpos p (List.mem_cons_self p ps))
          (fun y hy => hpos y (List.mem_cons_of_mem p hy)) pm htail
    exact div_nonpos_iff.mpr (Or.inr ⟨sub_nonpos.mpr hb.1, le_of_lt hb.2⟩)

theorem runningMaxAux_of_chain (l : List ℚ) :
    ∀ m : ℚ, List.Chain (· < ·) m l → runningMaxAux m l = l := by
  induction l with
  | nil => intro m _; rw [runningMaxAux]
  | cons x xs ih =>
    intro m hc
    rcases List.chain_cons.mp hc with ⟨hmx, hxs⟩
    rw [runningMaxAux, max_eq_right (le_of_lt hmx), ih x hxs]

theorem runningMax_of_chain' (prices : List ℚ)
    (h : List.Chain' (· < ·) prices) : runningMax prices = prices := by
  match prices, h with
  | [], _ => rw [runningMax]
  | p :: ps, h => rw [runningMax, runningMaxAux_of_chain ps p h]

theorem drawdowns_self (l : List ℚ) :
    (l.zip l).map (fun pm => (pm.1 - pm.2) / pm.2) =
      List.replicate l.length 0 := by
  induction l with
  | nil => rfl
  | cons x xs ih =>
    rw [List.zip_cons_cons, List.map_cons, ih, sub_self, zero_div,
      List.length_cons, List.replicate_succ]

theorem foldl_min_replicate_zero (n : ℕ) :
    (List.replicate n (0 : ℚ)).foldl min 0 = 0 := by
  induction n with
  | zero => rfl
  | succ k ih => rw [List.replicate_succ, List.foldl_cons, min_self, ih]

theorem listMin_replicate_zero (n : ℕ) :
    listMin (List.replicate n (0 : ℚ)) = 0 := by
  cases n with
  | zero => rfl
  | succ k =>
    rw [List.replicate_succ, listMin, foldl_min_replicate_zero]

theorem max_dd_eq_listMin (prices : List ℚ) :
    (RiskMetricsCalculator.calculate_drawdown prices).1 =
      listMin (drawdowns prices) := by
  by_cases hl : prices.length < 2
  · match prices, hl with
    | [], _ => rfl
    | [p], _ =>
      rw [RiskMetricsCalculator.calculate_drawdown, if_pos (by norm_num),
        drawdowns, runningMax, runningMaxAux, List.zip_cons_cons,
        List.zip_nil_left, List.map_cons, List.map_nil, sub_self, zero_div,
        listMin, List.foldl_nil]
  · simp only [RiskMetricsCalculator.calculate_drawdown, if_neg hl]

/-- C8: for positive price series every per-point drawdown
(price - running peak) / running peak is nonpositive, the reported
maximum drawdown is the minimum of that series, and a strictly
increasing series has maximum drawdown exactly 0 and drawdown duration
0 (the duration itself is modelled from the spec, being absent from
src/). -/
theorem drawdown_properties (prices : List ℚ)
    (hpos : ∀ p ∈ prices, 0 < p) :
    (∀ d ∈ drawdowns prices, d ≤ 0) ∧
    (RiskMetricsCalculator.calculate_drawdown prices).1 =
      listMin (drawdowns prices) ∧
    (List.Chain' (· < ·) prices →
      (RiskMetricsCalculator.calculate_drawdown prices).1 = 0 ∧
      drawdownDuration prices = 0) := by
  refine ⟨drawdowns_nonpos prices hpos, max_dd_eq_listMin prices, ?_⟩
  intro hchain
  have hdd : drawdowns prices = List.replicate prices.length 0 := by
    rw [drawdowns, runningMax_of_chain' prices hchain, drawdowns_self]
  constructor
  · rw [max_dd_eq_listMin prices, hdd, listMin_replicate_zero]
  · by_cases hl : prices.length < 2
    · rw [drawdownDuration, if_pos hl]
    · match prices, hl, hdd, hchain with
      | p :: ps, hl, hdd, hchain =>
        rw [drawdownDuration, if_neg hl]
        have hm0 : listMin ((0 : ℚ) :: List.replicate ps.length 0) = 0 := by
          rw [listMin, foldl_min_replicate_zero]
        simp only [hdd, List.length_cons, List.replicate_succ, hm0,
          List.findIdx_cons, decide_True, eq_self_iff_true, cond_true,
          runningMax_of_chain' _ hchain, List.getD_cons_zero,
          List.drop_zero, le_refl]

theorem getD_mem_of_lt {l : List ℚ} {i : ℕ} (h : i < l.length) :
    l.getD i 0 ∈ l := by
  rw [List.getD_eq_get l 0 h]
  exact List.get_mem l i h

theorem sorted_cons_le_getD {x : ℚ} {xs : List ℚ}
    (h : List.Sorted (· ≤ ·) (x :: xs)) {i : ℕ}
    (hi : i < (x :: xs).length) : x ≤ (x :: xs).getD i 0 := by
  rcases List.mem_cons.mp (getD_mem_of_lt hi) with heq | htl
  · rw [heq]
  · exact List.rel_of_sorted_cons h _ htl

theorem sorted_getD_le_succ {s : List ℚ} (hs : List.Sorted (· ≤ ·) s)
    {i : ℕ} (hi : i < s.length) :
    s.getD i 0 ≤ s.getD (i + 1) (s.getD i 0) := by
  by_cases h1 : i + 1 < s.length
  · rw [List.getD_eq_get s 0 hi, List.getD_eq_get s (s.get ⟨i, hi⟩) h1]
    exact hs.rel_get_of_lt (Nat.lt_succ_self i)
  · rw [List.getD_eq_default s (s.getD i 0) (Nat.le_of_not_lt h1)]

theorem exists_le_npPercentile (l : List ℚ) (q : ℚ) (hl : l ≠ [])
    (hq0 : 0 ≤ q) (hq1 : q ≤ 100) : ∃ x ∈ l, x ≤ npPercentile l q := by
  simp only [npPercentile]
  have hsort : List.Sorted (· ≤ ·) (List.insertionSort (· ≤ ·) l) :=
    List.sorted_insertionSort _ l
  have hperm := List.perm_insertionSort (· ≤ ·) l
  set s := List.insertionSort (· ≤ ·) l with hs_def
  have hsne : s ≠ [] := by
    intro h
    exact hl ((h ▸ hperm).symm.eq_nil)
  have hn1 : 1 ≤ s.length := List.length_pos.mpr hsne
  set hh : ℚ := q / 100 * ((s.length : ℚ) - 1) with hh_def
  have hn0 : (0 : ℚ) ≤ (s.length : ℚ) - 1 := by
    have hc : (1 : ℚ) ≤ (s.length : ℚ) := by exact_mod_cast hn1
    linarith
  have hh0 : 0 ≤ hh := mul_nonneg (div_nonneg hq0 (by norm_num)) hn0
  have hhub : hh ≤ (s.length : ℚ) - 1 := by
    have hq100 : q / 100 ≤ 1 := by
      rw [div_le_one (by norm_num : (0 : ℚ) < 100)]
      exact hq1
    exact mul_le_of_le_one_left hn0 hq100
  have hfl0 : 0 ≤ Int.floor hh := Int.floor_nonneg.mpr hh0
  have hfl_le : (Int.floor hh : ℚ) ≤ (s.length : ℚ) - 1 :=
    le_trans (Int.floor_le hh) hhub
  have hfl_le' : Int.floor hh ≤ (s.length : ℤ) - 1 := by
    have hc : ((Int.floor hh : ℤ) : ℚ) ≤ (((s.length : ℤ) - 1 : ℤ) : ℚ) := by
      push_cast
      exact_mod_cast hfl_le
    exact_mod_cast hc
  have hi_lt : (Int.floor hh).toNat < s.length := by omega
  obtain ⟨x, xs, hsx⟩ : ∃ x xs, s = x :: xs := by
    cases hsc : s with
    | nil => exact absurd hsc hsne
    | cons a as => exact ⟨a, as, rfl⟩
  refine ⟨x, ?_, ?_⟩
  · exact hperm.subset (hsx ▸ List.mem_cons_self x xs)
  · have hx_lo : x ≤ s.getD (Int.floor hh).toNat 0 := by
      rw [hsx]
      exact sorted_cons_le_getD (hsx ▸ hsort) (hsx ▸ hi_lt)
    have hlo_hi : s.getD (Int.floor hh).toNat 0 ≤
        s.getD ((Int.floor hh).toNat + 1) (s.getD (Int.floor hh).toNat 0) :=
      sorted_getD_le_succ hsort hi_lt
    have hfrac : 0 ≤ hh - (Int.floor hh : ℚ) :=
      sub_nonneg.mpr (Int.floor_le hh)
    have hprod : 0 ≤ (hh - (Int.floor hh : ℚ)) *
        (s.getD ((Int.floor hh).toNat + 1) (s.getD (Int.floor hh).toNat 0) -
          s.getD (Int.floor hh).toNat 0) :=
      mul_nonneg hfrac (sub_nonneg.mpr hlo_hi)
    linarith

theorem mean_le_of_forall_le {l : List ℚ} {v : ℚ} (hne : l ≠ [])
    (hb : ∀ x ∈ l, x ≤ v) : mean l ≤ v := by
  have hlen : 0 < (l.length : ℚ) := by
    have hc : 0 < l.length := List.length_pos.mpr hne
    exact_mod_cast hc
  rw [mean, div_le_iff₀ hlen]
  have hsum := List.sum_le_card_nsmul l v hb
  rwa [nsmul_eq_mul, mul_comm] at hsum

/-- C2: for every return series and every confidence level in [0, 1],
the computed CVaR is at most the computed (historical, the default
method) VaR, and in the degenerate case in which no return lies at or
below the VaR threshold while at least 10 observations exist, CVaR
equals VaR. -/
theorem cvar_le_var_historical (ppf sqrtf : ℚ → ℚ) (r : List ℚ) (c : ℚ)
    (hc0 : 0 ≤ c) (hc1 : c ≤ 1) :
    RiskMetricsCalculator.calculate_cvar ppf sqrtf r c ≤
      RiskMetricsCalculator.calculate_var ppf sqrtf r c "historical" ∧
    (10 ≤ r.length →
      r.filter (fun y => decide (y ≤
        RiskMetricsCalculator.calculate_var ppf sqrtf r c "historical")) = [] →
      RiskMetricsCalculator.calculate_cvar ppf sqrtf r c =
        RiskMetricsCalculator.calculate_var ppf sqrtf r c "historical") := by
  by_cases hlen : r.length < 10
  · constructor
    · simp only [RiskMetricsCalculator.calculate_cvar,
        RiskMetricsCalculator.calculate_var, if_pos hlen]
      norm_num
    · intro h10 _
      exact absurd hlen (Nat.not_lt.mpr h10)
  · have hvar : RiskMetricsCalculator.calculate_var ppf sqrtf r c
        "historical" = npPercentile r ((1 - c) * 100) := by
      simp [RiskMetricsCalculator.calculate_var, hlen]
    have hq0 : 0 ≤ (1 - c) * 100 := by nlinarith
    have hq1 : (1 - c) * 100 ≤ 100 := by nlinarith
    have hne : r ≠ [] := by
      intro h
      rw [h] at hlen
      exact hlen (by norm_num)
    obtain ⟨x, hxr, hxv⟩ := exists_le_npPercentile r ((1 - c) * 100) hne hq0 hq1
    rw [← hvar] at hxv
    have hmem : x ∈ r.filter (fun y => decide (y ≤
        RiskMetricsCalculator.calculate_var ppf sqrtf r c "historical")) :=
      List.mem_filter.mpr ⟨hxr, decide_eq_true hxv⟩
    have htne := List.ne_nil_of_mem hmem
    have hcvar : RiskMetricsCalculator.calculate_cvar ppf sqrtf r c =
        mean (r.filter (fun y => decide (y ≤
          RiskMetricsCalculator.calculate_var ppf sqrtf r c "historical"))) := by
      simp only [RiskMetricsCalculator.calculate_cvar, if_neg hlen]
      rw [if_neg htne]
    constructor
    · rw [hcvar]
      refine mean_le_of_forall_le htne ?_
      intro y hy
      exact of_decide_eq_true (List.mem_filter.mp hy).2
    · intro _ hempty
      rw [hempty] at hmem
      exact absurd hmem (List.not_mem_nil x)

theorem cvar_le_var_historical_witness :
    RiskMetricsCalculator.calculate_cvar (fun q => q) (fun q => q)
      [1, 2, 3, 4, 5, -1, -2, -3, -4, -5] (95 / 100) ≤
    RiskMetricsCalculator.calculate_var (fun q => q) (fun q => q)
      [1, 2, 3, 4, 5, -1, -2, -3, -4, -5] (95 / 100) "historical" :=
  (cvar_le_var_historical (fun q => q) (fun q => q)
    [1, 2, 3, 4, 5, -1, -2, -3, -4, -5] (95 / 100) (by norm_num)
    (by norm_num)).1

theorem drawdown_properties_witness :
    (∀ d ∈ drawdowns [1, 2, 3], d ≤ 0) ∧
    (RiskMetricsCalculator.calculate_drawdown [1, 2, 3]).1 =
      listMin (drawdowns [1, 2, 3]) ∧
    (List.Chain' (· < ·) ([1, 2, 3] : List ℚ) →
      (RiskMetricsCalculator.calculate_drawdown [1, 2, 3]).1 = 0 ∧
      drawdownDuration [1, 2, 3] = 0) :=
  drawdown_properties [1, 2, 3] (by norm_num)

end FiveLens
